import Mathlib

/-!
Verification of the ITI (instrument-to-instrument translation) data pipeline:
a shallow embedding in Lean 4 of the index arithmetic and control flow of
`iti/translate.py` and `iti/data/dataset.py`, together with theorems settling
the specified properties (tiling round-trip, storage-cache behaviour,
basename intersection/alignment, stride down-sampling, metadata expansion,
dataset length invariants).

Conventions of the embedding:
* a multi-channel image is a total function `Nat → Nat → Nat → Int`
  (channel, row, column); shape information is carried separately when needed;
* the neural model is an opaque function from images to images;
* the filesystem store of `StorageDataset` is a map `String → Option α`;
* file basenames are drawn from an arbitrary linearly ordered type `α`
  (Python strings are totally ordered; the particular string order is
  irrelevant to the properties proved);
* fallible Python code (`ValueError`, `IndexError`, a raising editor chain)
  is modelled with `Option` / `Except`.

The file is organised as definitions first (one section per embedded piece
of source code, quoted in the section comment), then all theorems.
-/

namespace ITI

/-!
## Definitions: tiled inference (`iti/translate.py`, `_translateBlocks`)

For `img` of shape `(C, D, D)` with `patch_dim = D // n_patches`,
`_translateBlocks(img, n_patches)` does:

* `view_as_blocks(img, (C, patch_dim, patch_dim))` followed by
  `reshape(-1, C, patch_dim, patch_dim)`: the flat tile `t` (row-major over
  the `n_patches × n_patches` grid) is the sub-image starting at row
  `(t / p) * k` and column `(t % p) * k`;
* the model applied to every tile;
* `reshape((p, p, C', k', k'))` then `moveaxis([0,1],[1,3])` then
  `reshape((C', p*k', p*k'))`: output pixel `(c, x, y)` is read from tile
  `(x / k') * p + y / k'` at in-tile coordinates `(x % k', y % k')`.
-/

/-- Tile `t` (row-major flat index over the `p × p` grid) of an image split
into tiles of side `k`, as produced by `view_as_blocks` + `reshape(-1, ...)`. -/
def viewAsBlocksFlat (p k : Nat) (img : Nat → Nat → Nat → Int) (t : Nat) :
    Nat → Nat → Nat → Int :=
  fun c i j => img c (t / p * k + i) (t % p * k + j)

/-- Reassembly performed by the final `reshape` / `moveaxis` / `reshape` of
`_translateBlocks`: pixel `(c, x, y)` of the assembled image comes from tile
`(x / kOut) * p + y / kOut` at position `(c, x % kOut, y % kOut)`. -/
def reassembleBlocks (p kOut : Nat) (patches : Nat → Nat → Nat → Nat → Int) :
    Nat → Nat → Nat → Int :=
  fun c x y => patches (x / kOut * p + y / kOut) c (x % kOut) (y % kOut)

/-- Embedding of `_translateBlocks`: split into a `p × p` grid of tiles of
side `kIn`, run the model on every tile, reassemble the (possibly rescaled,
side `kOut`) output tiles. -/
def translateBlocks (p kIn kOut : Nat)
    (model : (Nat → Nat → Nat → Int) → (Nat → Nat → Nat → Int))
    (img : Nat → Nat → Nat → Int) : Nat → Nat → Nat → Int :=
  reassembleBlocks p kOut (fun t => model (viewAsBlocksFlat p kIn img t))

/-- A concrete image used to instantiate hypothesis-bearing theorems. -/
def sampleImage : Nat → Nat → Nat → Int :=
  fun c x y => (c : Int) + 7 * (x : Int) + 13 * (y : Int)

/-!
## Definitions: storage-backed dataset (`iti/data/dataset.py`, `StorageDataset`)

```
def __getitem__(self, idx):
    id = self.dataset.getId(idx)
    store_path = os.path.join(self.store_dir, '%s.npy' % id)
    if os.path.exists(store_path):
        data = np.load(store_path, mmap_mode='r+')
        data = self.convertData(data)
        return data
    data = self.dataset[idx]
    np.save(store_path, data)
    data = self.convertData(data)
    return data
```
The filesystem is modelled as `String → Option α` (path to stored array);
editors thread auxiliary keyword state `κ`, starting at an empty state `k0`
(modelling the Python `kwargs = {}`).
-/

/-- One editor: `convert(data, **kwargs) -> (data, kwargs)`. -/
def EditorFn (α κ : Type) : Type := α → κ → α × κ

/-- Folding an editor chain over a sample starting from auxiliary state `k0`
(the common body of every `convertData` in `dataset.py`). -/
def runEditors {α κ : Type} (editors : List (EditorFn α κ)) (k0 : κ) (data : α) :
    α × κ :=
  editors.foldl (fun dk e => e dk.1 dk.2) (data, k0)

/-- A `StorageDataset`: the wrapped dataset's item access and identifier,
the store directory and the lightweight post-cache chain `ext_editors`. -/
structure StorageDataset (α κ : Type) where
  datasetItem : Nat → α
  getId : Nat → String
  store_dir : String
  ext_editors : List (EditorFn α κ)

/-- Embedding of `StorageDataset.convertData`: run only the post-cache
`ext_editors` chain, discarding the auxiliary state. -/
def StorageDataset.convertData {α κ : Type} (sd : StorageDataset α κ) (k0 : κ)
    (data : α) : α :=
  (runEditors sd.ext_editors k0 data).1

/-- The cache path `<store_dir>/<id>.npy` for the sample at `idx`. -/
def StorageDataset.storePath {α κ : Type} (sd : StorageDataset α κ)
    (idx : Nat) : String :=
  sd.store_dir ++ "/" ++ sd.getId idx ++ ".npy"

/-- Embedding of `StorageDataset.__getitem__`: returns the produced sample,
the filesystem after the call, and whether the wrapped dataset's upstream
chain was invoked. -/
def StorageDataset.getItem {α κ : Type} (sd : StorageDataset α κ) (k0 : κ)
    (store : String → Option α) (idx : Nat) :
    α × (String → Option α) × Bool :=
  match store (sd.storePath idx) with
  | some data => (sd.convertData k0 data, store, false)
  | none =>
      (sd.convertData k0 (sd.datasetItem idx),
        fun s => if s = sd.storePath idx then some (sd.datasetItem idx)
          else store s, true)

/-!
## Definitions: bulk materialization (`StorageDataset.convert`)

```
def convert(self, n_worker):
    it = DataLoader(self, batch_size=1, shuffle=False, num_workers=n_worker).__iter__()
    for i in tqdm(range(len(self.dataset))):
        try:
            next(it)
            gc.collect()
        except StopIteration:
            return
        except Exception as ex:
            logging.error('Invalid data: %s' % self.dataset.data[i])
            logging.error(str(ex))
            continue
```
The ordered loader (`shuffle=False`, `batch_size=1`) yields exactly one item
per dataset index, in index order, so the loop counter `i` and the index the
loader consumes advance in lockstep and the `StopIteration` branch cannot
fire before the range ends; an exception raised while producing item `i`
propagates out of `next(it)` and the loop's `continue` moves on to index
`i + 1`.  Item production is modelled as `Nat → Except ε α`; the run is
modelled as the trace of visited indices paired with the error logged there
(`none` = success).
-/

/-- The materialization loop over a list of indices: each index is visited
once; a failure is recorded (logged) and iteration continues. -/
def convertLoop {α ε : Type} (item : Nat → Except ε α) :
    List Nat → List (Nat × Option ε)
  | [] => []
  | i :: rest =>
      match item i with
      | Except.ok _ => (i, none) :: convertLoop item rest
      | Except.error e => (i, some e) :: convertLoop item rest

/-- Embedding of `StorageDataset.convert`: visit every index in
`range(len(dataset))`. -/
def convertJob {α ε : Type} (item : Nat → Except ε α) (n : Nat) :
    List (Nat × Option ε) :=
  convertLoop item (List.range n)

/-!
## Definitions: cross-instrument alignment (`get_intersecting_files`)

```
def get_intersecting_files(path, dirs, months=None, years=None, n_samples=None,
                           ext=None, basenames=None, **kwargs):
    pattern = '*' if ext is None else '*' + ext
    if basenames is None:
        basenames = [[os.path.basename(path) for path in glob.glob(...)] for d in dirs]
        basenames = list(set(basenames[0]).intersection(*basenames))
    if months:
        basenames = [bn for bn in basenames if parse(bn.split('_')[1]).month in months]
    if years:
        basenames = [bn for bn in basenames if parse(bn.split('_')[1]).year in years]
    basenames = sorted(list(basenames))
    if n_samples:
        basenames = basenames[::len(basenames) // n_samples]
    return [[os.path.join(path, str(dir), b) for b in basenames] for dir in dirs]
```

Basenames are drawn from a linearly ordered type `α`; the globbed directory
listing is the opaque function `globBase : String → List α`; date parsing of
a basename is the pair of opaque functions `monthOf, yearOf : α → Nat`.
A joined path `os.path.join(path, str(dir), b)` is the record
`JoinedPath.mk path dir b`.  A slice with step `0` raises `ValueError` in
Python, modelled by `Except.error`.
-/

/-- The joined path `os.path.join(path, str(dir), b)`. -/
structure JoinedPath (α : Type) where
  root : String
  dir : String
  base : α
deriving DecidableEq

/-- Embedding of `list(set(basenames[0]).intersection(*basenames))`: the
elements of the first listing that occur in every listing, without
duplicates. -/
def intersectBasenames {α : Type} [DecidableEq α] (baseLists : List (List α)) :
    List α :=
  ((baseLists.headD []).filter (fun b => baseLists.all (fun l => decide (b ∈ l)))).dedup

/-- Embedding of `sorted(...)` on basenames, as a stable comparison sort
(any stable sort computes the same list-valued function as Python's stable
`sorted`). -/
def sortNames {α : Type} [LinearOrder α] (l : List α) : List α :=
  l.insertionSort (fun a b => a ≤ b)

/-- Python extended slicing `l[::s]` for step `s ≥ 1`: every `s`-th element
starting at index 0. -/
def strideSlice {α : Type} : List α → Nat → List α
  | [], _ => []
  | a :: rest, s => a :: strideSlice (rest.drop (s - 1)) s
termination_by l _ => l.length
decreasing_by simp; omega

/-- The two truthiness-guarded date filters (`if months:` / `if years:`). -/
def dateFiltered {α : Type} (monthOf yearOf : α → Nat)
    (months years : Option (List Nat)) (basenames : List α) : List α :=
  let bs1 := match months with
    | some ms =>
        if ms.isEmpty then basenames
        else basenames.filter (fun bn => ms.contains (monthOf bn))
    | none => basenames
  match years with
  | some ys => if ys.isEmpty then bs1 else bs1.filter (fun bn => ys.contains (yearOf bn))
  | none => bs1

/-- The sorted, filtered common basename list computed by
`get_intersecting_files` just before the optional stride slice. -/
def sortedBasenames {α : Type} [LinearOrder α] [DecidableEq α]
    (dirs : List String) (globBase : String → List α)
    (monthOf yearOf : α → Nat) (months years : Option (List Nat))
    (basenames0 : Option (List α)) : List α :=
  let basenames := match basenames0 with
    | none => intersectBasenames (dirs.map globBase)
    | some bs => bs
  sortNames (dateFiltered monthOf yearOf months years basenames)

/-- Embedding of `get_intersecting_files`. -/
def get_intersecting_files {α : Type} [LinearOrder α] [DecidableEq α]
    (path : String) (dirs : List String) (globBase : String → List α)
    (monthOf yearOf : α → Nat) (months years : Option (List Nat))
    (n_samples : Option Nat) (basenames0 : Option (List α)) :
    Except String (List (List (JoinedPath α))) :=
  let basenames :=
    sortedBasenames dirs globBase monthOf yearOf months years basenames0
  match n_samples with
  | some n =>
      if n = 0 then
        Except.ok (dirs.map (fun d => basenames.map (fun b => JoinedPath.mk path d b)))
      else if basenames.length / n = 0 then
        Except.error "slice step cannot be zero"
      else
        Except.ok (dirs.map (fun d =>
          (strideSlice basenames (basenames.length / n)).map
            (fun b => JoinedPath.mk path d b)))
  | none =>
      Except.ok (dirs.map (fun d => basenames.map (fun b => JoinedPath.mk path d b)))

/-- Directory listings used as concrete witnesses: basename sets
`{1, 2, 3}` and `{2, 3, 4}` with common part `{2, 3}`. -/
def alignGlob : String → List Nat :=
  fun d => if d = "d1" then [1, 2, 3] else [2, 3, 4]

/-- Disjoint directory listings (`{1, 2}` vs `{3, 4}`) for the C9 witness. -/
def disjointGlob : String → List Nat :=
  fun d => if d = "d1" then [1, 2] else [3, 4]

/-- An unsorted three-element listing for the C5 witness. -/
def strideGlob : String → List Nat := fun _ => [5, 3, 4]

/-!
## Definitions: padding size (`iti/translate.py`, `_translateDataset`)

```
min_dim = min([i for i in range(img.shape[1], img.shape[1] * 2 ** (self.depth_generator + self.patch_factor))
               if i % 2 ** (self.depth_generator + self.patch_factor) == 0])
target_shape = (min_dim, min_dim)
```
Note the scan starts at `img.shape[1]`, the image HEIGHT of a
`(channels, height, width)` array — not at the width.
-/

/-- A numpy shape `(channels, height, width)`; `shape[1]` is `height`. -/
structure ImgShape where
  channels : Nat
  height : Nat
  width : Nat
deriving DecidableEq

/-- The Python list comprehension: multiples of `m` in `range(h, h * m)`. -/
def minDimCandidates (h m : Nat) : List Nat :=
  (List.range' h (h * m - h)).filter (fun i => i % m = 0)

/-- Embedding of `min([...])`; `none` models the `ValueError` of `min` on
an empty list. -/
def minDim (h m : Nat) : Option Nat := (minDimCandidates h m).min?

/-- The `min_dim` computed by `_translateDataset` for an image of shape
`s`: the scan starts at `s.height` (`img.shape[1]`). -/
def translateMinDim (s : ImgShape) (depth patchFactor : Nat) : Option Nat :=
  minDim s.height (2 ^ (depth + patchFactor))

/-!
## Definitions: metadata reconstruction (`_translateDataset`)

```
ref_meta = [k['header'] for k in kwargs['kwargs_list']] if 'kwargs_list' in kwargs else [kwargs['header']]
ref_meta += [ref_meta[-1]] * (len(iti_img) - len(ref_meta))
ref_img = img.tolist()
ref_img += [ref_img[-1]] * (len(iti_img) - len(ref_img))
maps = [Map(d, self._createMeta(d, ref_d, meta)) for d, ref_d, meta in zip(iti_img, ref_img, ref_meta)]
```
-/

/-- Embedding of `l += [l[-1]] * (n - len(l))`; `none` models the
`IndexError` of `l[-1]` on an empty list. -/
def extendWithLast {β : Type} (l : List β) (n : Nat) : Option (List β) :=
  match l.getLast? with
  | none => none
  | some x => some (l ++ List.replicate (n - l.length) x)

/-- The map-construction step: one `(d, ref_d, meta)` triple per output
channel via `zip(iti_img, ref_img, ref_meta)`, after both reference lists
were extended by repeating their last element. -/
def channelMaps {A B H : Type} (iti_img : List A) (img : List B)
    (ref_meta : List H) : Option (List (A × B × H)) :=
  match extendWithLast ref_meta iti_img.length,
      extendWithLast img iti_img.length with
  | some rm, some ri => some (iti_img.zip (ri.zip rm))
  | _, _ => none

/-!
## Definitions: base and stack datasets (`BaseDataset`, `StackDataset`)

`BaseDataset.__init__` resolves the sample list (glob is external; it is
given here as an already-resolved `List σ`), filters by month when a month
list is passed (`if months:`), then draws `limit` samples via
`random.sample` when `limit is not None` (the draw itself is the opaque
`sampleFn`; `random.sample(population, k)` returns exactly `k` elements).
`__len__` is `len(self.data)`; `addEditor` appends to `self.editors`.

```
class StackDataset(BaseDataset):
    def __init__(self, data_sets, limit=None, **kwargs):
        self.data_sets = data_sets
        editors = [StackEditor(data_sets)]
        super().__init__(list(range(len(data_sets[0]))), editors, limit=limit)

    def getId(self, idx):
        return os.path.basename(self.data_sets[0].data[idx]).split('.')[0]
```
-/

/-- A dataset: the resolved sample list and the editor chain. -/
structure BaseDataset (σ ε : Type) where
  data : List σ
  editors : List ε

/-- Embedding of `len(dataset)`. -/
def BaseDataset.len {σ ε : Type} (ds : BaseDataset σ ε) : Nat :=
  ds.data.length

/-- Embedding of `addEditor`: append one editor to the chain. -/
def BaseDataset.addEditor {σ ε : Type} (ds : BaseDataset σ ε) (e : ε) :
    BaseDataset σ ε :=
  BaseDataset.mk ds.data (ds.editors ++ [e])

/-- Embedding of `BaseDataset.__init__` after glob resolution. -/
def mkBaseDataset {σ ε : Type} (data : List σ) (editors : List ε)
    (monthKeep : σ → Bool) (useMonths : Bool) (limit : Option Nat)
    (sampleFn : List σ → Nat → List σ) : BaseDataset σ ε :=
  let d1 := if useMonths then data.filter monthKeep else data
  let d2 := match limit with
    | some k => sampleFn d1 k
    | none => d1
  BaseDataset.mk d2 editors

/-- Embedding of `os.path.basename`: the part after the last slash. -/
def basename (p : String) : String :=
  (p.splitOn "/").getLastD p

/-- A stack dataset: the child datasets and the underlying base dataset. -/
structure StackDataset (ε : Type) where
  data_sets : List (BaseDataset String ε)
  base : BaseDataset Nat ε

/-- Embedding of `StackDataset.__init__` with `limit=None`; `none` models
the `IndexError` of `data_sets[0]` on an empty child list. -/
def mkStackDataset {ε : Type} (data_sets : List (BaseDataset String ε))
    (stackEditor : ε) : Option (StackDataset ε) :=
  match data_sets.head? with
  | none => none
  | some d0 => some (StackDataset.mk data_sets
      (mkBaseDataset (List.range d0.data.length) [stackEditor]
        (fun _ => true) false none (fun l _ => l)))

/-- Embedding of `len(stack_dataset)`. -/
def StackDataset.len {ε : Type} (sd : StackDataset ε) : Nat :=
  sd.base.len

/-- Embedding of `StackDataset.getId`: basename of the FIRST child's path
at `idx`, truncated at the first dot; `none` models the `IndexError` on an
invalid index. -/
def StackDataset.getId {ε : Type} (sd : StackDataset ε) (idx : Nat) :
    Option String :=
  (sd.data_sets.head?).bind (fun d0 =>
    (d0.data[idx]?).map (fun p => ((basename p).splitOn ".").headD ""))

/-!
## Theorems
-/

/-- C1: for every `p > 0`, tile side `k > 0`, and padded image, splitting into
a `p × p` grid of `(C, k, k)` tiles, applying the identity model to each tile
and reassembling with the block-reassembly step of `_translateBlocks`
reproduces the original image at every pixel `(c, x, y)` of the
`(C, p*k, p*k)` field, with tile `(r, c)` placed at grid position `(r, c)` in
row-major tile order. -/
theorem translateBlocks_identity (p k : Nat) (img : Nat → Nat → Nat → Int)
    (c x y : Nat) (hp : 0 < p) (hk : 0 < k) (_hx : x < p * k) (hy : y < p * k) :
    translateBlocks p k k (fun t => t) img c x y = img c x y := by
  unfold translateBlocks reassembleBlocks viewAsBlocksFlat
  have hyk : y / k < p := (Nat.div_lt_iff_lt_mul hk).mpr hy
  have h1 : (x / k * p + y / k) / p = x / k := by
    rw [Nat.mul_comm (x / k) p, Nat.mul_add_div hp, Nat.div_eq_of_lt hyk,
      Nat.add_zero]
  have h2 : (x / k * p + y / k) % p = y / k := by
    rw [Nat.mul_comm (x / k) p, Nat.mul_add_mod, Nat.mod_eq_of_lt hyk]
  show img c ((x / k * p + y / k) / p * k + x % k)
      ((x / k * p + y / k) % p * k + y % k) = img c x y
  rw [h1, h2]
  have ex : x / k * k + x % k = x := by
    rw [Nat.mul_comm]; exact Nat.div_add_mod x k
  have ey : y / k * k + y % k = y := by
    rw [Nat.mul_comm]; exact Nat.div_add_mod y k
  rw [ex, ey]

/-- Witness for C1: the round-trip theorem applied at `p = 2`, `k = 3`,
pixel `(0, 4, 5)` of a concrete image. -/
theorem translateBlocks_identity_witness :
    0 < 2 ∧ 0 < 3 ∧ 4 < 2 * 3 ∧ 5 < 2 * 3 ∧
      translateBlocks 2 3 3 (fun t => t) sampleImage 0 4 5 = sampleImage 0 4 5 :=
  ⟨by decide, by decide, by decide, by decide,
    translateBlocks_identity 2 3 sampleImage 0 4 5 (by decide) (by decide)
      (by decide) (by decide)⟩

/-- C2: two consecutive `__getitem__(idx)` calls return identical samples;
after the first call the cache file `<store_dir>/<id>.npy` exists, and the
second call does not invoke the wrapped dataset's upstream editor chain
(it only applies the post-cache `ext_editors` chain to the cached
artifact). -/
theorem storageDataset_getItem_idempotent {α κ : Type}
    (sd : StorageDataset α κ) (k0 : κ) (store : String → Option α) (idx : Nat) :
    let r1 := sd.getItem k0 store idx
    let r2 := sd.getItem k0 r1.2.1 idx
    r2.1 = r1.1 ∧
      (∃ raw, r1.2.1 (sd.storePath idx) = some raw ∧
        r2.1 = sd.convertData k0 raw) ∧
      r2.2.2 = false := by
  intro r1 r2
  by_cases h : ∃ d, store (sd.storePath idx) = some d
  · obtain ⟨d, hd⟩ := h
    have e1 : r1 = (sd.convertData k0 d, store, false) := by
      show sd.getItem k0 store idx = _
      unfold StorageDataset.getItem
      rw [hd]
    have hstore : r1.2.1 = store := by rw [e1]
    have e2 : r2 = (sd.convertData k0 d, store, false) := by
      show sd.getItem k0 r1.2.1 idx = _
      rw [hstore]
      unfold StorageDataset.getItem
      rw [hd]
    rw [e1, e2]
    exact ⟨rfl, ⟨d, hd, rfl⟩, rfl⟩
  · have hd : store (sd.storePath idx) = none := by
      cases hs : store (sd.storePath idx) with
      | none => rfl
      | some d => exact absurd ⟨d, hs⟩ h
    have e1 : r1 = (sd.convertData k0 (sd.datasetItem idx),
        fun s => if s = sd.storePath idx then some (sd.datasetItem idx)
          else store s, true) := by
      show sd.getItem k0 store idx = _
      unfold StorageDataset.getItem
      rw [hd]
    have hmem : r1.2.1 (sd.storePath idx) = some (sd.datasetItem idx) := by
      rw [e1]
      simp
    have e2 : r2 = (sd.convertData k0 (sd.datasetItem idx), r1.2.1, false) := by
      show sd.getItem k0 r1.2.1 idx = _
      unfold StorageDataset.getItem
      rw [hmem]
    refine ⟨?_, ⟨sd.datasetItem idx, hmem, ?_⟩, ?_⟩
    · rw [e1, e2]
    · rw [e2]
    · rw [e2]

theorem convertLoop_map_fst {α ε : Type} (item : Nat → Except ε α) :
    ∀ l : List Nat, (convertLoop item l).map Prod.fst = l := by
  intro l
  induction l with
  | nil => rfl
  | cons i rest ih =>
      unfold convertLoop
      cases item i with
      | ok a => simpa using ih
      | error e => simpa using ih

theorem convertLoop_mem_error {α ε : Type} (item : Nat → Except ε α) :
    ∀ (l : List Nat) (i : Nat) (e : ε),
      (i, some e) ∈ convertLoop item l → item i = Except.error e := by
  intro l
  induction l with
  | nil => intro i e h; simp [convertLoop] at h
  | cons j rest ih =>
      intro i e h
      unfold convertLoop at h
      cases hj : item j with
      | ok a =>
          rw [hj] at h
          simp only [List.mem_cons, Prod.mk.injEq] at h
          rcases h with ⟨_, he⟩ | h1
          · exact absurd he (by simp)
          · exact ih i e h1
      | error e0 =>
          rw [hj] at h
          simp only [List.mem_cons, Prod.mk.injEq] at h
          rcases h with ⟨hi, he⟩ | h1
          · rw [Option.some_inj] at he
            subst hi; subst he
            exact hj
          · exact ih i e h1

theorem convertLoop_mem_ok {α ε : Type} (item : Nat → Except ε α) :
    ∀ (l : List Nat) (i : Nat) (a : α),
      i ∈ l → item i = Except.ok a → (i, none) ∈ convertLoop item l := by
  intro l
  induction l with
  | nil => intro i a h; simp at h
  | cons j rest ih =>
      intro i a hmem hok
      unfold convertLoop
      cases hj : item j with
      | ok b =>
          rcases List.mem_cons.mp hmem with h1 | h1
          · subst h1; exact List.mem_cons_self _ _
          · exact List.mem_cons_of_mem _ (ih i a h1 hok)
      | error e =>
          rcases List.mem_cons.mp hmem with h1 | h1
          · subst h1; rw [hok] at hj; exact absurd hj (by simp)
          · exact List.mem_cons_of_mem _ (ih i a h1 hok)

/-- C3: the bulk materialization job visits every index of the wrapped
dataset exactly once, in order (`0, 1, ..., n-1`), whether or not individual
items fail; a failing index is recorded exactly once (logged, never retried)
and iteration runs to completion over all remaining indices. -/
theorem convertJob_complete {α ε : Type} (item : Nat → Except ε α) (n : Nat) :
    (convertJob item n).map Prod.fst = List.range n ∧
      (convertJob item n).length = n ∧
      (∀ i e, (i, some e) ∈ convertJob item n → item i = Except.error e) ∧
      (∀ i a, item i = Except.ok a → i < n → (i, none) ∈ convertJob item n) := by
  refine ⟨convertLoop_map_fst item (List.range n), ?_, ?_, ?_⟩
  · have h := congrArg List.length (convertLoop_map_fst item (List.range n))
    simpa using h
  · exact fun i e h => convertLoop_mem_error item (List.range n) i e h
  · intro i a hok hin
    exact convertLoop_mem_ok item (List.range n) i a (List.mem_range.mpr hin) hok

theorem strideSlice_head? {α : Type} (l : List α) (s : Nat) :
    (strideSlice l s).head? = l.head? := by
  cases l with
  | nil => simp [strideSlice]
  | cons a rest => simp [strideSlice]

theorem stride_arith (s R : Nat) (hs : 0 < s) :
    (R - (s - 1) + s - 1) / s + 1 = (R + 1 + s - 1) / s := by
  rcases Nat.lt_or_ge R (s - 1) with h | h
  · have e1 : R - (s - 1) + s - 1 = s - 1 := by omega
    have e2 : R + 1 + s - 1 = R + s := by omega
    rw [e1, e2, Nat.add_div_right R hs, Nat.div_eq_of_lt (by omega),
      Nat.div_eq_of_lt (by omega)]
  · have e1 : R - (s - 1) + s - 1 = R := by omega
    have e2 : R + 1 + s - 1 = R + s := by omega
    rw [e1, e2, Nat.add_div_right R hs]

theorem strideSlice_length {α : Type} (s : Nat) (hs : 0 < s) :
    ∀ (n : Nat) (l : List α), l.length = n →
      (strideSlice l s).length = (n + s - 1) / s := by
  intro n
  induction n using Nat.strong_induction_on with
  | _ n ih =>
      intro l hl
      cases l with
      | nil =>
          simp only [List.length_nil] at hl
          subst hl
          simp [strideSlice, Nat.div_eq_of_lt (show s - 1 < s by omega)]
      | cons a rest =>
          simp only [List.length_cons] at hl
          subst hl
          have hlen : (rest.drop (s - 1)).length = rest.length - (s - 1) :=
            List.length_drop _ _
          have hrec := ih (rest.length - (s - 1)) (by omega) (rest.drop (s - 1)) hlen
          simp only [strideSlice, List.length_cons]
          rw [hrec]
          exact stride_arith s rest.length hs

theorem strideSlice_sublist {α : Type} (s : Nat) :
    ∀ (n : Nat) (l : List α), l.length = n →
      List.Sublist (strideSlice l s) l := by
  intro n
  induction n using Nat.strong_induction_on with
  | _ n ih =>
      intro l hl
      cases l with
      | nil => simp [strideSlice]
      | cons a rest =>
          simp only [List.length_cons] at hl
          subst hl
          have hlen : (rest.drop (s - 1)).length = rest.length - (s - 1) :=
            List.length_drop _ _
          have hrec := ih (rest.length - (s - 1)) (by omega) (rest.drop (s - 1)) hlen
          simp only [strideSlice]
          exact List.Sublist.cons₂ a (hrec.trans (List.drop_sublist _ _))

/-- C4: with no date filter and no down-sampling, `get_intersecting_files`
returns one path list per instrument directory; list `i` consists of the
full paths `path/dirs[i]/b` for exactly the basenames `b` common to every
instrument listing, in one shared sorted duplicate-free order, so the
`j`-th entries of all the instrument lists carry the same basename. -/
theorem get_intersecting_files_aligned {α : Type} [LinearOrder α] [DecidableEq α]
    (path : String) (dirs : List String) (globBase : String → List α)
    (monthOf yearOf : α → Nat) (hne : dirs ≠ []) :
    ∃ res,
      get_intersecting_files path dirs globBase monthOf yearOf none none none none
          = Except.ok res ∧
      res.length = dirs.length ∧
      (∀ (i : Nat) (hi : i < dirs.length),
        res[i]? = some
          ((sortedBasenames dirs globBase monthOf yearOf none none none).map
            (fun b => JoinedPath.mk path dirs[i] b))) ∧
      (∀ b, b ∈ sortedBasenames dirs globBase monthOf yearOf none none none ↔
        ∀ d ∈ dirs, b ∈ globBase d) ∧
      List.Sorted (fun a b : α => a ≤ b)
        (sortedBasenames dirs globBase monthOf yearOf none none none) ∧
      (sortedBasenames dirs globBase monthOf yearOf none none none).Nodup := by
  refine ⟨_, rfl, by simp, ?_, ?_, ?_, ?_⟩
  · intro i hi
    rw [List.getElem?_map, List.getElem?_eq_getElem hi]
    rfl
  · intro b
    obtain ⟨d0, rest, rfl⟩ : ∃ d0 rest, dirs = d0 :: rest := by
      cases dirs with
      | nil => exact absurd rfl hne
      | cons d0 rest => exact ⟨d0, rest, rfl⟩
    have hmem : b ∈ sortedBasenames (d0 :: rest) globBase monthOf yearOf
          none none none ↔
        b ∈ intersectBasenames ((d0 :: rest).map globBase) :=
      (List.perm_insertionSort _ _).mem_iff
    rw [hmem]
    unfold intersectBasenames
    simp only [List.mem_dedup, List.mem_filter, List.map_cons, List.headD_cons,
      List.all_eq_true, decide_eq_true_eq]
    constructor
    · rintro ⟨h0, hall⟩ d hd
      rcases List.mem_cons.mp hd with rfl | hd2
      · exact h0
      · exact hall (globBase d) (List.mem_cons_of_mem _ (List.mem_map_of_mem _ hd2))
    · intro h
      refine ⟨h d0 (List.mem_cons_self _ _), ?_⟩
      intro l hl
      rcases List.mem_cons.mp hl with rfl | hl2
      · exact h d0 (List.mem_cons_self _ _)
      · obtain ⟨d, hd, rfl⟩ := List.mem_map.mp hl2
        exact h d (List.mem_cons_of_mem _ hd)
  · exact List.sorted_insertionSort _ _
  · exact ((List.perm_insertionSort _ _).nodup_iff).mpr (List.nodup_dedup _)

/-- Witness for C4 at the listings `{1,2,3}` / `{2,3,4}`. -/
theorem get_intersecting_files_aligned_witness :
    (["d1", "d2"] : List String) ≠ [] ∧
      ∃ res,
        get_intersecting_files "root" ["d1", "d2"] alignGlob (fun _ => 0)
            (fun _ => 0) none none none none = Except.ok res ∧
        res.length = 2 := by
  refine ⟨by decide, ?_⟩
  obtain ⟨res, h1, h2, -⟩ :=
    get_intersecting_files_aligned "root" ["d1", "d2"] alignGlob (fun _ => 0)
      (fun _ => 0) (by decide)
  exact ⟨res, h1, by simpa using h2⟩

/-- C9: when the instrument basename sets have empty intersection, the
default `get_intersecting_files` call raises nothing and returns one empty
path list per instrument directory. -/
theorem get_intersecting_files_empty_intersection {α : Type} [LinearOrder α]
    [DecidableEq α] (path : String) (dirs : List String)
    (globBase : String → List α) (monthOf yearOf : α → Nat)
    (hempty : intersectBasenames (dirs.map globBase) = []) :
    get_intersecting_files path dirs globBase monthOf yearOf none none none none =
      Except.ok (dirs.map (fun _ => ([] : List (JoinedPath α)))) := by
  have hB : sortedBasenames dirs globBase monthOf yearOf none none
      (none : Option (List α)) = [] := by
    unfold sortedBasenames dateFiltered sortNames
    rw [hempty]
    rfl
  show Except.ok (dirs.map (fun d =>
      (sortedBasenames dirs globBase monthOf yearOf none none none).map
        (fun b => JoinedPath.mk path d b))) = _
  rw [hB]
  simp

/-- Witness for C9 at disjoint listings. -/
theorem get_intersecting_files_empty_intersection_witness :
    intersectBasenames ((["d1", "d2"] : List String).map disjointGlob) = [] ∧
      get_intersecting_files "root" ["d1", "d2"] disjointGlob (fun _ => 0)
          (fun _ => 0) none none none none =
        Except.ok ((["d1", "d2"] : List String).map
          (fun _ => ([] : List (JoinedPath Nat)))) :=
  ⟨by decide,
    get_intersecting_files_empty_intersection "root" ["d1", "d2"] disjointGlob
      (fun _ => 0) (fun _ => 0) (by decide)⟩

/-- C5: with `n_samples = n` given (and a non-zero stride), the result is
the fixed-stride slice of the sorted basename list with stride
`floor(total / n)`, joined per directory; the stride slice deterministically
keeps every `stride`-th element starting at index 0 (so it preserves the
sorted order: it is a sublist), its length is `ceil(total / stride)`, and in
particular a 100-element sorted list with `n_samples = 10` yields exactly 10
elements whose first element is the element at index 0. -/
theorem get_intersecting_files_stride {α : Type} [LinearOrder α] [DecidableEq α]
    (path : String) (dirs : List String) (globBase : String → List α)
    (monthOf yearOf : α → Nat) (months years : Option (List Nat))
    (basenames0 : Option (List α)) (n : Nat) (hn : 0 < n)
    (hstride : 0 <
      (sortedBasenames dirs globBase monthOf yearOf months years basenames0).length
        / n) :
    get_intersecting_files path dirs globBase monthOf yearOf months years
        (some n) basenames0 =
      Except.ok (dirs.map (fun d =>
        (strideSlice
          (sortedBasenames dirs globBase monthOf yearOf months years basenames0)
          ((sortedBasenames dirs globBase monthOf yearOf months years
            basenames0).length / n)).map
          (fun b => JoinedPath.mk path d b))) ∧
      (∀ (l : List α) (s : Nat), 0 < s →
        (strideSlice l s).length = (l.length + s - 1) / s ∧
        (strideSlice l s).head? = l.head? ∧
        List.Sublist (strideSlice l s) l) ∧
      (∀ l : List α, l.length = 100 →
        (strideSlice l (l.length / 10)).length = 10 ∧
        (strideSlice l (l.length / 10)).head? = l[0]?) := by
  refine ⟨?_, ?_, ?_⟩
  · have hn0 : ¬ n = 0 := by omega
    have hs0 : ¬ (sortedBasenames dirs globBase monthOf yearOf months years
        basenames0).length / n = 0 := by omega
    dsimp only [get_intersecting_files]
    rw [if_neg hn0, if_neg hs0]
  · intro l s hs
    exact ⟨strideSlice_length s hs l.length l rfl, strideSlice_head? l s,
      strideSlice_sublist s l.length l rfl⟩
  · intro l hl
    have h10 : l.length / 10 = 10 := by rw [hl]
    refine ⟨?_, ?_⟩
    · rw [strideSlice_length (l.length / 10) (by rw [h10]; omega) l.length l rfl,
        hl]
    · rw [strideSlice_head?, List.head?_eq_getElem?]

/-- Witness for C5: `n_samples = 1` over a 3-element intersection (stride 3),
plus the 100-element / 10-sample instance applied to `List.range 100`. -/
theorem get_intersecting_files_stride_witness :
    0 < 1 ∧
      0 < (sortedBasenames ["d"] strideGlob (fun _ => 0) (fun _ => 0)
        none none none).length / 1 ∧
      (List.range 100).length = 100 ∧
      (strideSlice (List.range 100) ((List.range 100).length / 10)).length = 10 ∧
      (strideSlice (List.range 100) ((List.range 100).length / 10)).head? =
        (List.range 100)[0]? := by
  refine ⟨by decide, by decide, by simp, ?_, ?_⟩
  · exact ((get_intersecting_files_stride "r" ["d"] strideGlob (fun _ => 0)
      (fun _ => 0) none none none 1 (by decide) (by decide)).2.2
        (List.range 100) (by simp)).1
  · exact ((get_intersecting_files_stride "r" ["d"] strideGlob (fun _ => 0)
      (fun _ => 0) none none none 1 (by decide) (by decide)).2.2
        (List.range 100) (by simp)).2

/-- Counterexample to C6: for the non-square shape `(1, 16, 4)` with
`depth_generator = 3`, `patch_factor = 0`, the code computes
`min_dim = 16` (driven by `shape[1] = 16`), while the smallest integer
that is `≥ width = 4` and divisible by `2^3` is `8 ≠ 16`. -/
theorem translateMinDim_not_width :
    translateMinDim (ImgShape.mk 1 16 4) 3 0 = some 16 ∧
      (8 % 2 ^ (3 + 0) = 0 ∧ (ImgShape.mk 1 16 4).width ≤ 8) ∧
      (∀ x, x < 8 → x % 2 ^ (3 + 0) = 0 → ¬ (ImgShape.mk 1 16 4).width ≤ x) ∧
      translateMinDim (ImgShape.mk 1 16 4) 3 0 ≠ some 8 := by decide

/-- C6 (amended: the divisibility scan starts at the image height
`shape[1]`, not at the width): for `height ≥ 2` and
`depth + patch_factor ≥ 1`, `min_dim` is exactly the smallest integer that
is `≥ height` and divisible by `2^(depth + patch_factor)`. -/
theorem translateMinDim_eq (s : ImgShape) (depth patchFactor : Nat)
    (hh : 2 ≤ s.height) (hdp : 1 ≤ depth + patchFactor) :
    ∃ c, translateMinDim s depth patchFactor = some c ∧
      c % 2 ^ (depth + patchFactor) = 0 ∧ s.height ≤ c ∧
      ∀ x, x % 2 ^ (depth + patchFactor) = 0 → s.height ≤ x → c ≤ x := by
  set m := 2 ^ (depth + patchFactor) with hm
  have hm2 : 2 ≤ m := by
    calc 2 = 2 ^ 1 := by norm_num
    _ ≤ 2 ^ (depth + patchFactor) := Nat.pow_le_pow_right (by omega) hdp
  have hmpos : 0 < m := by omega
  set h := s.height with hh0
  set q := (h - 1) / m + 1 with hq
  have hle : h ≤ q * m := by
    have : (h - 1) / m < q := by omega
    have := (Nat.div_lt_iff_lt_mul hmpos).mp this
    omega
  have hqh : q < h := by
    have h1 : (h - 1) / m ≤ (h - 1) / 2 := Nat.div_le_div_left hm2 (by omega)
    have h2 : (h - 1) / 2 < h - 1 := Nat.div_lt_self (by omega) (by omega)
    omega
  have hlt : q * m < h * m := (Nat.mul_lt_mul_right hmpos).mpr hqh
  have hmod : q * m % m = 0 := Nat.mul_mod_left q m
  have hmem : q * m ∈ minDimCandidates h m := by
    unfold minDimCandidates
    rw [List.mem_filter]
    refine ⟨?_, by simp [hmod]⟩
    rw [List.mem_range']
    exact ⟨q * m - h, by omega, by omega⟩
  have hmin : ∀ b ∈ minDimCandidates h m, q * m ≤ b := by
    intro b hb
    unfold minDimCandidates at hb
    rw [List.mem_filter] at hb
    obtain ⟨hbr, hbm⟩ := hb
    rw [List.mem_range'] at hbr
    obtain ⟨i, hi, hbi⟩ := hbr
    have hbge : h ≤ b := by omega
    have hbmod : b % m = 0 := by simpa using hbm
    have hbdvd : b / m * m = b := Nat.div_mul_cancel (Nat.dvd_of_mod_eq_zero hbmod)
    have hqb : q ≤ b / m := by
      have : (h - 1) / m < b / m := by
        rw [Nat.div_lt_iff_lt_mul hmpos, hbdvd]
        omega
      omega
    calc q * m ≤ b / m * m := Nat.mul_le_mul_right m hqb
    _ = b := hbdvd
  refine ⟨q * m, ?_, by simp [hmod], hle, ?_⟩
  · show minDim h m = some (q * m)
    unfold minDim
    exact List.min?_eq_some_iff'.mpr ⟨hmem, hmin⟩
  · intro x hx hhx
    rcases Nat.lt_or_ge x (h * m) with hxlt | hxge
    · refine hmin x ?_
      unfold minDimCandidates
      rw [List.mem_filter, List.mem_range']
      exact ⟨⟨x - h, by omega, by omega⟩, by simpa using hx⟩
    · omega

/-- Witness for the amended C6 at shape `(1, 9, 9)`, `depth = 3`,
`patch_factor = 0`. -/
theorem translateMinDim_eq_witness :
    2 ≤ (ImgShape.mk 1 9 9).height ∧ 1 ≤ 3 + 0 ∧
      ∃ c, translateMinDim (ImgShape.mk 1 9 9) 3 0 = some c ∧
        c % 2 ^ (3 + 0) = 0 ∧ (ImgShape.mk 1 9 9).height ≤ c ∧
        ∀ x, x % 2 ^ (3 + 0) = 0 → (ImgShape.mk 1 9 9).height ≤ x → c ≤ x :=
  ⟨by decide, by decide,
    translateMinDim_eq (ImgShape.mk 1 9 9) 3 0 (by decide) (by decide)⟩

theorem zip_getElem? {A B : Type} :
    ∀ (l1 : List A) (l2 : List B) (i : Nat),
      (l1.zip l2)[i]? = (l1[i]?).bind (fun a => (l2[i]?).map (fun b => (a, b))) := by
  intro l1
  induction l1 with
  | nil => intro l2 i; simp
  | cons a l1 ih =>
      intro l2 i
      cases l2 with
      | nil => simp
      | cons b l2 =>
          cases i with
          | zero => simp
          | succ j => simpa using ih l2 j

/-- C7: when the model output has at least as many channels as the input
metadata records (and input image channels), the metadata-reconstruction
step yields exactly one `(output, reference-image, reference-header)`
triple per output channel; output channel `i` uses input header `i` while
`i` is within the input records, and every extra output channel reuses the
last input header. -/
theorem channelMaps_expand {A B H : Type} (iti_img : List A) (img : List B)
    (ref_meta : List H) (m0 : H) (i0 : B)
    (hlast : ref_meta.getLast? = some m0) (hlastI : img.getLast? = some i0)
    (hm : ref_meta.length ≤ iti_img.length) (hi : img.length ≤ iti_img.length) :
    ∃ maps, channelMaps iti_img img ref_meta = some maps ∧
      maps.length = iti_img.length ∧
      (∀ i, i < ref_meta.length →
        (maps.map (fun t => t.2.2))[i]? = ref_meta[i]?) ∧
      (∀ i, ref_meta.length ≤ i → i < iti_img.length →
        (maps.map (fun t => t.2.2))[i]? = some m0) := by
  have hrm : extendWithLast ref_meta iti_img.length = some
      (ref_meta ++ List.replicate (iti_img.length - ref_meta.length) m0) := by
    unfold extendWithLast; rw [hlast]
  have hri : extendWithLast img iti_img.length = some
      (img ++ List.replicate (iti_img.length - img.length) i0) := by
    unfold extendWithLast; rw [hlastI]
  have hrilen :
      (img ++ List.replicate (iti_img.length - img.length) i0).length =
        iti_img.length := by simp; omega
  refine ⟨iti_img.zip
      ((img ++ List.replicate (iti_img.length - img.length) i0).zip
        (ref_meta ++ List.replicate (iti_img.length - ref_meta.length) m0)),
    ?_, ?_, ?_, ?_⟩
  · unfold channelMaps
    rw [hrm, hri]
  · have hrmlen :
        (ref_meta ++ List.replicate (iti_img.length - ref_meta.length) m0).length =
          iti_img.length := by simp; omega
    simp [List.length_zip, hrmlen, hrilen]
  · intro i hilt
    have hin : i < iti_img.length := lt_of_lt_of_le hilt hm
    have hrm_i :
        (ref_meta ++ List.replicate (iti_img.length - ref_meta.length) m0)[i]? =
          some ref_meta[i] := by
      rw [List.getElem?_append, if_pos hilt, List.getElem?_eq_getElem hilt]
    obtain ⟨b, hb⟩ :
        ∃ b, (img ++ List.replicate (iti_img.length - img.length) i0)[i]? =
          some b := by
      have hlt : i < (img ++ List.replicate (iti_img.length - img.length)
          i0).length := by rw [hrilen]; exact hin
      rw [List.getElem?_eq_getElem hlt]
      exact ⟨_, rfl⟩
    rw [List.getElem?_map, zip_getElem?, zip_getElem?, hrm_i, hb,
      List.getElem?_eq_getElem hin, List.getElem?_eq_getElem hilt]
    simp
  · intro i hge hin
    have hrm_i :
        (ref_meta ++ List.replicate (iti_img.length - ref_meta.length) m0)[i]? =
          some m0 := by
      rw [List.getElem?_append, if_neg (by omega), List.getElem?_replicate,
        if_pos (by omega)]
    obtain ⟨b, hb⟩ :
        ∃ b, (img ++ List.replicate (iti_img.length - img.length) i0)[i]? =
          some b := by
      have hlt : i < (img ++ List.replicate (iti_img.length - img.length)
          i0).length := by rw [hrilen]; exact hin
      rw [List.getElem?_eq_getElem hlt]
      exact ⟨_, rfl⟩
    rw [List.getElem?_map, zip_getElem?, zip_getElem?, hrm_i, hb,
      List.getElem?_eq_getElem hin]
    simp

/-- Witness for C7: 4 input channels expanded to 5 output channels; the 5th
output reuses the 4th input header. -/
theorem channelMaps_expand_witness :
    ([10, 11, 12, 13] : List Nat).getLast? = some 13 ∧
      ([20, 21, 22, 23] : List Nat).getLast? = some 23 ∧
      ([10, 11, 12, 13] : List Nat).length ≤ ([0, 1, 2, 3, 4] : List Nat).length ∧
      ([20, 21, 22, 23] : List Nat).length ≤ ([0, 1, 2, 3, 4] : List Nat).length ∧
      ∃ maps,
        channelMaps ([0, 1, 2, 3, 4] : List Nat) ([20, 21, 22, 23] : List Nat)
            ([10, 11, 12, 13] : List Nat) = some maps ∧
        maps.length = ([0, 1, 2, 3, 4] : List Nat).length ∧
        (∀ i, i < ([10, 11, 12, 13] : List Nat).length →
          (maps.map (fun t => t.2.2))[i]? = ([10, 11, 12, 13] : List Nat)[i]?) ∧
        (∀ i, ([10, 11, 12, 13] : List Nat).length ≤ i →
          i < ([0, 1, 2, 3, 4] : List Nat).length →
          (maps.map (fun t => t.2.2))[i]? = some 13) :=
  ⟨by decide, by decide, by decide, by decide,
    channelMaps_expand [0, 1, 2, 3, 4] [20, 21, 22, 23] [10, 11, 12, 13] 13 23
      (by decide) (by decide) (by decide) (by decide)⟩

theorem addEditor_iterate_data {σ ε : Type} (e : ε) :
    ∀ (n : Nat) (ds : BaseDataset σ ε),
      ((fun d => BaseDataset.addEditor d e)^[n] ds).data = ds.data := by
  intro n
  induction n with
  | zero => intro ds; rfl
  | succ k ih =>
      intro ds
      rw [Function.iterate_succ_apply]
      exact ih (ds.addEditor e)

/-- C8: the dataset length equals the number of resolved identifiers after
the date filter and the `limit` draw (`limit` elements when a limit is
given, all filtered elements otherwise), and repeated `addEditor` calls
change neither the sample list nor the length — only the editor chain, by
appending. -/
theorem baseDataset_len_addEditor {σ ε : Type} (data : List σ)
    (editors : List ε) (monthKeep : σ → Bool) (useMonths : Bool)
    (limit : Option Nat) (sampleFn : List σ → Nat → List σ) (e : ε) (n : Nat)
    (hsample : ∀ k, limit = some k →
      (sampleFn (if useMonths then data.filter monthKeep else data) k).length
        = k) :
    (mkBaseDataset data editors monthKeep useMonths limit sampleFn).len =
        (match limit with
          | some k => k
          | none => (if useMonths then data.filter monthKeep else data).length) ∧
      ((fun d => BaseDataset.addEditor d e)^[n]
          (mkBaseDataset data editors monthKeep useMonths limit sampleFn)).data =
        (mkBaseDataset data editors monthKeep useMonths limit sampleFn).data ∧
      ((fun d => BaseDataset.addEditor d e)^[n]
          (mkBaseDataset data editors monthKeep useMonths limit sampleFn)).len =
        (mkBaseDataset data editors monthKeep useMonths limit sampleFn).len ∧
      ((mkBaseDataset data editors monthKeep useMonths limit sampleFn).addEditor
          e).editors =
        (mkBaseDataset data editors monthKeep useMonths limit sampleFn).editors
          ++ [e] := by
  refine ⟨?_, addEditor_iterate_data e n _, ?_, rfl⟩
  · cases limit with
    | none => rfl
    | some k => exact hsample k rfl
  · show ((fun d => BaseDataset.addEditor d e)^[n] _).data.length = _
    rw [addEditor_iterate_data e n _]
    rfl

/-- Witness for C8: three samples, `limit = 2`, `sampleFn` drawing a
2-element sample, three `addEditor` iterations. -/
theorem baseDataset_len_addEditor_witness :
    (∀ k, (some 2 : Option Nat) = some k →
      (((if false then ([10, 20, 30] : List Nat).filter (fun _ => true)
        else [10, 20, 30])).take k).length = k) ∧
      (mkBaseDataset [10, 20, 30] ([] : List Unit) (fun _ => true) false
        (some 2) (fun l k => l.take k)).len = 2 ∧
      ((fun d => BaseDataset.addEditor d ())^[3]
          (mkBaseDataset [10, 20, 30] ([] : List Unit) (fun _ => true) false
            (some 2) (fun l k => l.take k))).len = 2 := by
  have h := baseDataset_len_addEditor [10, 20, 30] ([] : List Unit)
    (fun _ => true) false (some 2) (fun l k => l.take k) () 3
    (fun k hk => by cases hk; decide)
  exact ⟨fun k hk => by cases hk; decide, h.1, h.2.2.1.trans h.1⟩

/-- C10: for a non-empty child list and no limit, construction always
succeeds — for ANY tail `cs`, with no check relating the other children's
element counts to the first's — the stack length is the first child's
length, and both the length and `getId` are unchanged under replacing the
tail by an arbitrary other tail; `getId` reads only the first child's path
list. -/
theorem stackDataset_first_child {ε : Type} (c0 : BaseDataset String ε)
    (cs : List (BaseDataset String ε)) (stackEditor : ε) :
    ∃ sd, mkStackDataset (c0 :: cs) stackEditor = some sd ∧
      sd.len = c0.data.length ∧
      (∀ cs', ∃ sd', mkStackDataset (c0 :: cs') stackEditor = some sd' ∧
        sd'.len = sd.len ∧ ∀ idx, sd'.getId idx = sd.getId idx) ∧
      (∀ idx, sd.getId idx =
        (c0.data[idx]?).map (fun p => ((basename p).splitOn ".").headD "")) := by
  refine ⟨_, rfl, ?_, ?_, ?_⟩
  · show (mkBaseDataset (List.range c0.data.length) [stackEditor]
        (fun _ => true) false none (fun l _ => l) : BaseDataset Nat ε).len =
      c0.data.length
    show (List.range c0.data.length).length = c0.data.length
    exact List.length_range _
  · intro cs'
    refine ⟨_, rfl, ?_, ?_⟩
    · rfl
    · intro idx; rfl
  · intro idx; rfl

end ITI
